import Mathlib

/-!
Shallow embedding of the food-ordering backend (`src/main.py`) for the
order-lifecycle, rating-aggregation and presence/hunger logic.

Conventions of the embedding:
* Python floats (prices, ratings) are modelled as `ℚ`.
* `datetime.utcnow()` timestamps are modelled as an explicit `now : Nat`
  parameter (milliseconds since the epoch where a concrete scale matters).
* The document store is modelled as Lean lists of structures; `find_one` is
  `List.find?`, `update_one` mutates the first matching document, and
  `insert_one` appends.
* `HTTPException` short-circuits are modelled with `Except ApiError`.
-/

namespace FoodApp

/-- Python's `round(x, 1)`: round `x` to one decimal digit. -/
def round1 (q : ℚ) : ℚ := ((round (q * 10) : ℤ) : ℚ) / 10

/-- Replace the first element satisfying `p` by its image under `f`
(the list-model of Mongo's `update_one`, and of the `for ... break` loops
over a store's menu in `main.py`). -/
def replaceFirst (p : α → Bool) (f : α → α) : List α → List α
  | [] => []
  | x :: xs => if p x then f x :: xs else x :: replaceFirst p f xs

/-! ### Data model (`src/models.py`) -/

/-- An embedded menu item of a store.  `rating` / `review_count` are optional
because `main.py` reads them with `item.get("rating", 4.0)` /
`item.get("review_count", 0)`. -/
structure MenuItem where
  id : Nat
  name : String
  price : ℚ
  rating : Option ℚ
  review_count : Option Nat
  deriving DecidableEq

/-- A store document (the fields the verified operations touch). -/
structure Store where
  id : Nat
  name : String
  menu : List MenuItem
  updated_at : Nat
  deriving DecidableEq

/-- A review document (the fields `update_item_rating` reads). -/
structure Review where
  store_id : Nat
  item_id : Nat
  rating : ℚ
  status : String
  deriving DecidableEq

/-- An order line item (`models.OrderItem`). -/
structure OrderItem where
  store_id : Nat
  store_name : String
  item_id : Nat
  item_name : String
  price : ℚ
  quantity : Int
  deriving DecidableEq

/-- `models.DeliveryAddress`. -/
structure DeliveryAddress where
  building : String
  room : String
  phone : String
  deriving DecidableEq

/-- One entry of an order's timeline. -/
structure TimelineEntry where
  status : String
  timestamp : Nat
  note : Option String
  deriving DecidableEq

/-- `models.OrderCreate`: the client payload of `POST /api/orders`.
It has no total field: the client cannot supply a total. -/
structure OrderCreate where
  user_id : String
  user_name : String
  items : List OrderItem
  delivery_address : DeliveryAddress
  payment_method : String
  notes : Option String
  deriving DecidableEq

/-- An order document as built by `create_order`. -/
structure Order where
  order_id : String
  user_id : String
  user_name : String
  items : List OrderItem
  total_amount : ℚ
  status : String
  delivery_address : DeliveryAddress
  payment_method : String
  notes : Option String
  timeline : List TimelineEntry
  created_at : Nat
  updated_at : Nat
  deriving DecidableEq

/-- The errors raised by the verified endpoints (`HTTPException`s). -/
inductive ApiError where
  | invalidStatus
  | notFound
  deriving DecidableEq

/-- The HTTP status code each error surfaces as. -/
def ApiError.statusCode : ApiError → Nat
  | .invalidStatus => 400
  | .notFound => 404

/-! ### Rating aggregator (`update_item_rating`, `main.py` lines 491-526) -/

/-- The approved reviews for a `(store_id, item_id)` pair, in collection
order: the filter of the `find` query in `update_item_rating`. -/
def approvedReviews (store_id item_id : Nat) (reviews : List Review) : List Review :=
  reviews.filter fun r =>
    r.store_id == store_id && r.item_id == item_id && r.status == "approved"

/-- The `avg_rating` computed by `update_item_rating`: the rounded average
of the (at most 1000 fetched, `to_list(length=1000)`) approved reviews, or
the default `4.0` when there are none. -/
def aggRating (store_id item_id : Nat) (reviews : List Review) : ℚ :=
  let revs := (approvedReviews store_id item_id reviews).take 1000
  if revs.isEmpty then 4 else round1 ((revs.map Review.rating).sum / (revs.length : ℚ))

/-- The `review_count` computed by `update_item_rating`. -/
def aggCount (store_id item_id : Nat) (reviews : List Review) : Nat :=
  let revs := (approvedReviews store_id item_id reviews).take 1000
  if revs.isEmpty then 0 else revs.length

/-- `update_item_rating(store_id, item_id)`.  Reads at most 1000 approved
reviews (`to_list(length=1000)`), averages them (default `4.0` / `0` when
none), and rewrites the first matching menu item of the first store with
that id, bumping `updated_at`; a missing store means no write at all. -/
def update_item_rating (now : Nat) (store_id item_id : Nat)
    (reviews : List Review) (stores : List Store) : List Store :=
  match stores.find? (fun s => s.id == store_id) with
  | none => stores
  | some store =>
      let menu := replaceFirst (fun item => item.id == item_id)
        (fun item => { item with
          rating := some (aggRating store_id item_id reviews),
          review_count := some (aggCount store_id item_id reviews) })
        store.menu
      replaceFirst (fun s => s.id == store_id)
        (fun s => { s with menu := menu, updated_at := now }) stores

/-! ### Order lifecycle (`create_order` / `update_order_status`) -/

/-- `create_order` (`main.py` lines 555-593): server-side total, id
`ORD-<millisecond timestamp>`, status `pending`, singleton timeline. -/
def create_order (now : Nat) (order_data : OrderCreate) : Order :=
  let total_amount : ℚ := (order_data.items.map fun item => item.price * (item.quantity : ℚ)).sum
  { order_id := "ORD-" ++ Nat.repr now
    user_id := order_data.user_id
    user_name := order_data.user_name
    items := order_data.items
    total_amount := total_amount
    status := "pending"
    delivery_address := order_data.delivery_address
    payment_method := order_data.payment_method
    notes := order_data.notes
    timeline := [{ status := "pending", timestamp := now, note := some "Order placed" }]
    created_at := now
    updated_at := now }

/-- `insert_one` of the freshly built order document. -/
def create_order_db (now : Nat) (order_data : OrderCreate) (orders : List Order) : List Order :=
  orders ++ [create_order now order_data]

/-- The closed set of order statuses accepted by `update_order_status`. -/
def validStatuses : List String :=
  ["pending", "preparing", "ready", "delivered", "cancelled"]

/-- The JSON body of `PUT /api/orders/{order_id}/status`
(`status_data.get("status")` / `status_data.get("note", ...)`). -/
structure StatusData where
  status : Option String
  note : Option String
  deriving DecidableEq

/-- The mutation `update_order_status` performs on the found order:
append a timeline entry (note defaulting to `"Order <status>"`), set the
status field, bump `updated_at`. -/
def applyStatusUpdate (now : Nat) (new_status : String) (note : Option String)
    (order : Order) : Order :=
  { order with
    status := new_status
    timeline := order.timeline ++
      [{ status := new_status, timestamp := now,
         note := some (note.getD ("Order " ++ new_status)) }]
    updated_at := now }

/-- `update_order_status` (`main.py` lines 596-630): closed-set status check
first, then order lookup, then the read-modify-write of the timeline. -/
def update_order_status (now : Nat) (order_id : String) (status_data : StatusData)
    (orders : List Order) : Except ApiError (List Order) :=
  match status_data.status with
  | none => .error .invalidStatus
  | some new_status =>
      if validStatuses.contains new_status then
        match orders.find? (fun o => o.order_id == order_id) with
        | none => .error .notFound
        | some _ =>
            .ok (replaceFirst (fun o => o.order_id == order_id)
              (applyStatusUpdate now new_status status_data.note) orders)
      else .error .invalidStatus

/-- The orders collection after a `PUT /status` call: unchanged when the
handler raised before its `update_one`. -/
def orders_after_update (now : Nat) (order_id : String) (status_data : StatusData)
    (orders : List Order) : List Order :=
  match update_order_status now order_id status_data orders with
  | .ok l => l
  | .error _ => orders

/-- The timeline invariant of an order: the first entry is the `pending`
creation entry and the last entry carries the order's current status. -/
def timelineInv (o : Order) : Prop :=
  (o.timeline.head?).map TimelineEntry.status = some "pending" ∧
  (o.timeline.getLast?).map TimelineEntry.status = some o.status

instance (o : Order) : Decidable (timelineInv o) := by
  unfold timelineInv; infer_instance

/-! ### Direct rating endpoint (`rate_menu_item`, `main.py` lines 892-934) -/

/-- The per-item incremental weighted-average update of `rate_menu_item`. -/
def rateItem (v : ℚ) (item : MenuItem) : MenuItem :=
  let old_rating := item.rating.getD 4
  let old_count := item.review_count.getD 0
  let new_count := old_count + 1
  let new_rating := (old_rating * (old_count : ℚ) + v) / (new_count : ℚ)
  { item with rating := some (round1 new_rating), review_count := some new_count }

/-- `POST /api/stores/{store_id}/menu/{item_id}/rate`: 404 on a missing
store or item (before any write), otherwise rewrite the first matching
item of the first matching store and return the new rating and count. -/
def rate_menu_item (now : Nat) (store_id item_id : Nat) (v : ℚ)
    (stores : List Store) : Except ApiError (List Store × ℚ × Nat) :=
  match stores.find? (fun s => s.id == store_id) with
  | none => .error .notFound
  | some store =>
      match store.menu.find? (fun item => item.id == item_id) with
      | none => .error .notFound
      | some item =>
          let item' := rateItem v item
          let menu := replaceFirst (fun it => it.id == item_id) (rateItem v) store.menu
          let stores' := replaceFirst (fun s => s.id == store_id)
            (fun s => { s with menu := menu, updated_at := now }) stores
          .ok (stores', item'.rating.getD 4, item'.review_count.getD 0)

/-! ### Presence and hunger level (`main.py` lines 662-699, 755-777) -/

/-- `models.DeviceInfo`. -/
structure DeviceInfo where
  type : String
  os : Option String
  browser : Option String
  deriving DecidableEq

/-- `models.ActiveUserCreate`: the payload of `POST /api/active-users`. -/
structure ActiveUserCreate where
  user_id : String
  session_id : String
  is_ordering : Bool
  current_store : Option String
  device_info : Option DeviceInfo
  deriving DecidableEq

/-- A stored presence record (`device_info` is `none` when the payload had
none, mirroring the stored empty dict). -/
structure ActiveUserRecord where
  user_id : String
  session_id : String
  timestamp : Nat
  is_ordering : Bool
  current_store : Option String
  device_info : Option DeviceInfo
  last_activity : Nat
  deriving DecidableEq

/-- The document `add_active_user` builds from the payload: every stored
field comes from the payload or the current time. -/
def mkActiveUserRecord (now : Nat) (p : ActiveUserCreate) : ActiveUserRecord :=
  { user_id := p.user_id
    session_id := p.session_id
    timestamp := now
    is_ordering := p.is_ordering
    current_store := p.current_store
    device_info := p.device_info
    last_activity := now }

/-- `POST /api/active-users`: `update_one({user_id}, {$set: all fields},
upsert=True)` — replace the first record with that user id, or append. -/
def add_active_user (now : Nat) (p : ActiveUserCreate)
    (users : List ActiveUserRecord) : List ActiveUserRecord :=
  if users.any (fun u => u.user_id == p.user_id) then
    replaceFirst (fun u => u.user_id == p.user_id)
      (fun _ => mkActiveUserRecord now p) users
  else users ++ [mkActiveUserRecord now p]

/-- How many stored records exist for a given user id. -/
def countUser (uid : String) (users : List ActiveUserRecord) : Nat :=
  (users.filter fun u => u.user_id == uid).length

/-- Five minutes in milliseconds. -/
def fiveMinutesMs : Nat := 5 * 60 * 1000

/-- The active-user count: presence records whose `last_activity` lies
within the last five minutes (`last_activity >= now - 5 min`). -/
def activeCount (now : Nat) (users : List ActiveUserRecord) : Nat :=
  (users.filter fun u => now - fiveMinutesMs ≤ u.last_activity).length

/-- Hour of day of a millisecond timestamp (`datetime.utcnow().hour`). -/
def hourOf (now : Nat) : Nat := now / 3600000 % 24

/-- The peak-hours test of `get_hunger_level`:
`(11 <= current_hour <= 14) or (18 <= current_hour <= 21)`. -/
def isPeakHour (hour : Nat) : Bool :=
  decide ((11 ≤ hour ∧ hour ≤ 14) ∨ (18 ≤ hour ∧ hour ≤ 21))

/-- The arithmetic core of `get_hunger_level`:
`base = min((active/100)*100, 100)`, times `1.5` re-capped at `100` in
peak hours, truncated to an integer. -/
def computeHungerLevel (active_users : Nat) (is_peak : Bool) : Nat :=
  let base : ℚ := min (((active_users : ℚ) / 100) * 100) 100
  let base := if is_peak then min (base * (3 / 2)) 100 else base
  (⌊base⌋).toNat

/-- `GET /api/active-users/hunger-level`. -/
def get_hunger_level (now : Nat) (users : List ActiveUserRecord) : Nat :=
  computeHungerLevel (activeCount now users) (isPeakHour (hourOf now))

/-! ### Helper lemmas about `replaceFirst` -/

theorem replaceFirst_of_find?_eq_none {p : α → Bool} {f : α → α} :
    ∀ {l : List α}, l.find? p = none → replaceFirst p f l = l
  | [], _ => rfl
  | x :: xs, h => by
    rw [List.find?_cons] at h
    split at h
    · exact absurd h (by simp)
    · rename_i hx
      simp only [replaceFirst, hx, Bool.false_eq_true, if_false]
      rw [replaceFirst_of_find?_eq_none h]

theorem find?_replaceFirst {p : α → Bool} {f : α → α} {a : α} :
    ∀ {l : List α}, l.find? p = some a → p (f a) = true →
      (replaceFirst p f l).find? p = some (f a)
  | x :: xs, h, hf => by
    rw [List.find?_cons] at h
    split at h
    · rename_i hx
      obtain rfl : x = a := by simpa using h
      simp [replaceFirst, hx, List.find?_cons, hf]
    · rename_i hx
      simp only [replaceFirst, hx, Bool.false_eq_true, if_false]
      rw [List.find?_cons_of_neg _ (by simp [hx])]
      exact find?_replaceFirst h hf

theorem replaceFirst_congr {p : α → Bool} {f g : α → α} {a : α} :
    ∀ {l : List α}, l.find? p = some a → f a = g a →
      replaceFirst p f l = replaceFirst p g l
  | x :: xs, h, hfg => by
    rw [List.find?_cons] at h
    split at h
    · rename_i hx
      obtain rfl : x = a := by simpa using h
      simp [replaceFirst, hx, hfg]
    · rename_i hx
      simp only [replaceFirst, hx, Bool.false_eq_true, if_false]
      rw [replaceFirst_congr h hfg]

theorem replaceFirst_forall₂ (p : α → Bool) (f : α → α) :
    ∀ l : List α, List.Forall₂ (fun x y => y = x ∨ (p x = true ∧ y = f x))
      l (replaceFirst p f l)
  | [] => .nil
  | x :: xs => by
    simp only [replaceFirst]
    split
    · rename_i hx
      exact .cons (Or.inr ⟨hx, rfl⟩) (List.forall₂_same.mpr fun a _ => Or.inl rfl)
    · exact .cons (Or.inl rfl) (replaceFirst_forall₂ p f xs)

theorem length_filter_replaceFirst {p : α → Bool} {f : α → α}
    (hp : ∀ x, p x = true → p (f x) = true) :
    ∀ l : List α, ((replaceFirst p f l).filter p).length = (l.filter p).length
  | [] => rfl
  | x :: xs => by
    by_cases hx : p x = true
    · simp [replaceFirst, hx, List.filter_cons, hp x hx]
    · simp only [replaceFirst]
      rw [if_neg hx, List.filter_cons, if_neg hx, List.filter_cons, if_neg hx]
      exact length_filter_replaceFirst hp xs

theorem contains_iff_mem_strings {l : List String} {s : String} :
    l.contains s = true ↔ s ∈ l := by
  simp [List.contains_iff_exists_mem_beq, beq_iff_eq]

/-! ### Claim theorems -/

/-- Claim C2: `create_order` stores `total_amount` as the server-side sum of
`price * quantity` over the submitted line items; the total depends only on
the items (the `OrderCreate` payload has no client total field at all). -/
theorem C2_server_computed_total :
    ∀ (now : Nat) (d : OrderCreate),
      (create_order now d).total_amount
        = (d.items.map fun item => item.price * (item.quantity : ℚ)).sum ∧
      ∀ (now' : Nat) (d' : OrderCreate), d'.items = d.items →
        (create_order now' d').total_amount = (create_order now d).total_amount := by
  intro now d
  refine ⟨rfl, fun now' d' h => ?_⟩
  simp only [create_order, h]

/-- Witness for C2 at a concrete payload: an order with items
(price 100, qty 2) and (price 50, qty 1) totals 250, independently of the
rest of the payload. -/
theorem C2_server_computed_total_witness :
    (create_order 7 ⟨"u1", "U",
        [⟨1, "S", 1, "Burger", 100, 2⟩, ⟨1, "S", 2, "Fries", 50, 1⟩],
        ⟨"A", "101", "123"⟩, "cash", none⟩).total_amount
      = (create_order 3 ⟨"u2", "V",
          [⟨1, "S", 1, "Burger", 100, 2⟩, ⟨1, "S", 2, "Fries", 50, 1⟩],
          ⟨"B", "202", "456"⟩, "card", some "quick"⟩).total_amount ∧
    (create_order 3 ⟨"u2", "V",
        [⟨1, "S", 1, "Burger", 100, 2⟩, ⟨1, "S", 2, "Fries", 50, 1⟩],
        ⟨"B", "202", "456"⟩, "card", some "quick"⟩).total_amount = 250 := by
  refine ⟨(C2_server_computed_total 3 _).2 7 _ rfl, ?_⟩
  rw [(C2_server_computed_total 3 _).1]
  norm_num

theorem update_order_status_none (now : Nat) (oid : String) (note : Option String)
    (orders : List Order) :
    update_order_status now oid ⟨none, note⟩ orders = .error .invalidStatus := rfl

theorem update_order_status_some (now : Nat) (oid : String) (s : String)
    (note : Option String) (orders : List Order) :
    update_order_status now oid ⟨some s, note⟩ orders =
      if validStatuses.contains s then
        match orders.find? (fun o => o.order_id == oid) with
        | none => .error .notFound
        | some _ => .ok (replaceFirst (fun o => o.order_id == oid)
            (applyStatusUpdate now s note) orders)
      else .error .invalidStatus := rfl

/-- Claim C4: `update_order_status` succeeds iff the requested status is in
the closed five-value set and an order with the given id exists; an invalid
status fails with the 400 invalid-status error and no mutation, and a
missing order fails with 404 and no mutation. -/
theorem C4_update_status_success_iff :
    ∀ (now : Nat) (oid : String) (sd : StatusData) (orders : List Order),
      ((∃ l, update_order_status now oid sd orders = .ok l) ↔
        (∃ s, sd.status = some s ∧ s ∈ validStatuses) ∧
          ∃ o ∈ orders, o.order_id = oid) ∧
      (∀ e, update_order_status now oid sd orders = .error e →
        orders_after_update now oid sd orders = orders) ∧
      ((∀ s, sd.status = some s → s ∉ validStatuses) →
        update_order_status now oid sd orders = .error .invalidStatus ∧
        ApiError.statusCode .invalidStatus = 400) ∧
      ((∃ s, sd.status = some s ∧ s ∈ validStatuses) →
        (∀ o ∈ orders, o.order_id ≠ oid) →
        update_order_status now oid sd orders = .error .notFound ∧
        ApiError.statusCode .notFound = 404) := by
  intro now oid sd orders
  obtain ⟨st, note⟩ := sd
  have herr : ∀ e, update_order_status now oid ⟨st, note⟩ orders = .error e →
      orders_after_update now oid ⟨st, note⟩ orders = orders := by
    intro e he
    rw [orders_after_update, he]
  refine ⟨?_, herr, ?_, ?_⟩
  · cases st with
    | none =>
        rw [update_order_status_none]
        simp
    | some s =>
        rw [update_order_status_some]
        by_cases hv : validStatuses.contains s
        · rw [if_pos hv]
          constructor
          · intro ⟨l, hl⟩
            match hf : orders.find? (fun o => o.order_id == oid) with
            | none => rw [hf] at hl; exact absurd hl (by simp)
            | some o =>
                refine ⟨⟨s, rfl, contains_iff_mem_strings.mp hv⟩,
                  o, List.mem_of_find?_eq_some hf, ?_⟩
                simpa using List.find?_some hf
          · rintro ⟨-, o, ho, hid⟩
            match hf : orders.find? (fun o => o.order_id == oid) with
            | some o' => exact ⟨_, by rw [hf]⟩
            | none =>
                rw [List.find?_eq_none] at hf
                exact absurd (by simpa using hid) (hf o ho)
        · rw [if_neg hv]
          constructor
          · intro ⟨l, hl⟩; exact absurd hl (by simp)
          · rintro ⟨⟨s', hs', hmem'⟩, -⟩
            obtain rfl : s = s' := by simpa using hs'
            exact absurd (contains_iff_mem_strings.mpr hmem') hv
  · intro hinv
    refine ⟨?_, rfl⟩
    cases st with
    | none => rw [update_order_status_none]
    | some s =>
        rw [update_order_status_some,
          if_neg fun hc => hinv s rfl (contains_iff_mem_strings.mp hc)]
  · rintro ⟨s, hs, hmem⟩ hnone
    obtain rfl : st = some s := hs
    refine ⟨?_, rfl⟩
    rw [update_order_status_some, if_pos (contains_iff_mem_strings.mpr hmem)]
    match hf : orders.find? (fun o => o.order_id == oid) with
    | none => rw [hf]
    | some o =>
        have hmemo := List.mem_of_find?_eq_some hf
        have hpo := List.find?_some hf
        exact absurd (by simpa using hpo) (hnone o hmemo)

/-- Witness for C4 at concrete inputs: on an empty collection, a valid
status fails with 404, and (see the invalid-status conjunct) a status
outside the closed set fails with the 400 error. -/
theorem C4_update_status_success_iff_witness :
    update_order_status 1 "ORD-1" ⟨some "preparing", none⟩ [] = .error .notFound ∧
    update_order_status 1 "ORD-1" ⟨some "flying", none⟩ [] = .error .invalidStatus := by
  constructor
  · exact ((C4_update_status_success_iff 1 "ORD-1" ⟨some "preparing", none⟩ []).2.2.2
      ⟨"preparing", rfl, by decide⟩ (by simp)).1
  · exact ((C4_update_status_success_iff 1 "ORD-1" ⟨some "flying", none⟩ []).2.2.1
      (by intro s hs; cases hs; decide)).1

/-- Claim C9: the closed-set status validation runs before the order lookup:
whenever the requested status is not one of the five valid values the call
fails with the 400 invalid-status error — for every orders collection, in
particular one containing no order with the requested id — never with the
404 not-found error. -/
theorem C9_status_validation_first :
    ∀ (now : Nat) (oid : String) (sd : StatusData) (orders : List Order),
      (∀ s, sd.status = some s → s ∉ validStatuses) →
      update_order_status now oid sd orders = .error .invalidStatus ∧
      ApiError.statusCode .invalidStatus = 400 ∧
      update_order_status now oid sd orders ≠ .error .notFound := by
  intro now oid sd orders hinv
  obtain ⟨st, note⟩ := sd
  have h : update_order_status now oid ⟨st, note⟩ orders = .error .invalidStatus := by
    cases st with
    | none => rw [update_order_status_none]
    | some s =>
        rw [update_order_status_some,
          if_neg fun hc => hinv s rfl (contains_iff_mem_strings.mp hc)]
  exact ⟨h, rfl, by rw [h]; simp⟩

/-- Witness for C9: the status `"flying"` on a collection that does not
contain the referenced order id still yields the 400 error, not 404. -/
theorem C9_status_validation_first_witness :
    update_order_status 5 "ORD-404"
        ⟨some "flying", none⟩
        [create_order 1 ⟨"u1", "U", [], ⟨"A", "101", "123"⟩, "cash", none⟩]
      = .error .invalidStatus ∧
    update_order_status 5 "ORD-404"
        ⟨some "flying", none⟩
        [create_order 1 ⟨"u1", "U", [], ⟨"A", "101", "123"⟩, "cash", none⟩]
      ≠ .error .notFound := by
  have h := C9_status_validation_first 5 "ORD-404" ⟨some "flying", none⟩
    [create_order 1 ⟨"u1", "U", [], ⟨"A", "101", "123"⟩, "cash", none⟩]
    (by intro s hs; cases hs; decide)
  exact ⟨h.1, h.2.2⟩

theorem applyStatusUpdate_grows (now : Nat) (s : String) (note : Option String)
    (o : Order) (h : timelineInv o) :
    (applyStatusUpdate now s note o).timeline.length = o.timeline.length + 1 ∧
    (applyStatusUpdate now s note o).timeline.head? = o.timeline.head? ∧
    timelineInv (applyStatusUpdate now s note o) := by
  obtain ⟨h0, -⟩ := h
  obtain ⟨e, he, -⟩ := Option.map_eq_some'.mp h0
  refine ⟨by simp [applyStatusUpdate], ?_, ?_, ?_⟩
  · show (o.timeline ++ [_]).head? = o.timeline.head?
    rw [List.head?_append, he, Option.or]
  · show ((o.timeline ++ [_]).head?).map TimelineEntry.status = some "pending"
    rw [List.head?_append, he, Option.or, ← he]
    exact h0
  · show ((o.timeline ++ [_]).getLast?).map TimelineEntry.status = some _
    rw [List.getLast?_concat]
    rfl

/-- Claim C1: the timeline invariant.  A freshly created order has status
`pending` and a singleton `pending` timeline; a successful
`update_order_status` rewrites exactly the matched order to its
`applyStatusUpdate` image — whose timeline is the old timeline plus
exactly one entry, with `timeline[0]` unchanged (still `pending` under the
invariant) and `timeline[-1].status` equal to the new current status —
and no order's timeline ever shrinks. -/
theorem C1_timeline_invariant :
    (∀ (now : Nat) (d : OrderCreate),
      (create_order now d).status = "pending" ∧
      (create_order now d).timeline =
        [{ status := "pending", timestamp := now, note := some "Order placed" }] ∧
      timelineInv (create_order now d)) ∧
    (∀ (now : Nat) (oid : String) (sd : StatusData) (orders orders' : List Order),
      update_order_status now oid sd orders = .ok orders' →
      ∃ s o,
        sd.status = some s ∧
        orders.find? (fun o2 => o2.order_id == oid) = some o ∧
        orders' = replaceFirst (fun o2 => o2.order_id == oid)
          (applyStatusUpdate now s sd.note) orders ∧
        orders'.find? (fun o2 => o2.order_id == oid)
          = some (applyStatusUpdate now s sd.note o) ∧
        (applyStatusUpdate now s sd.note o).timeline.length
          = o.timeline.length + 1 ∧
        (timelineInv o →
          (applyStatusUpdate now s sd.note o).timeline.head? = o.timeline.head? ∧
          timelineInv (applyStatusUpdate now s sd.note o)) ∧
        List.Forall₂ (fun o2 o2' => o2.timeline.length ≤ o2'.timeline.length)
          orders orders') := by
  constructor
  · intro now d
    exact ⟨rfl, rfl, rfl, rfl⟩
  · intro now oid sd orders orders' h
    obtain ⟨st, note⟩ := sd
    cases st with
    | none => rw [update_order_status_none] at h; exact absurd h (by simp)
    | some s =>
        rw [update_order_status_some] at h
        by_cases hv : validStatuses.contains s
        · rw [if_pos hv] at h
          match hf : orders.find? (fun o => o.order_id == oid) with
          | none => rw [hf] at h; exact absurd h (by simp)
          | some o0 =>
              rw [hf] at h
              obtain rfl : replaceFirst (fun o => o.order_id == oid)
                  (applyStatusUpdate now s note) orders = orders' := by
                simpa using h
              refine ⟨s, o0, rfl, hf, rfl,
                find?_replaceFirst hf (by simpa using List.find?_some hf),
                by simp [applyStatusUpdate], ?_, ?_⟩
              · intro hinv
                have hg := applyStatusUpdate_grows now s note o0 hinv
                exact ⟨hg.2.1, hg.2.2⟩
              · refine (replaceFirst_forall₂ _ _ orders).imp ?_
                intro x y hxy
                rcases hxy with h1 | ⟨-, h2⟩
                · subst h1; exact le_rfl
                · subst h2
                  have hx : (applyStatusUpdate now s note x).timeline.length
                      = x.timeline.length + 1 := by simp [applyStatusUpdate]
                  omega
        · rw [if_neg hv] at h; exact absurd h (by simp)

/-- Witness for C1: the order created at time 1 and advanced to
`preparing` at time 2 is itself the matched post-state order, its timeline
has length 2 = 1 + 1, and the invariant holds again afterwards. -/
theorem C1_timeline_invariant_witness :
    [applyStatusUpdate 2 "preparing" (some "On it")
        (create_order 1 ⟨"u1", "U", [⟨1, "S", 1, "Burger", 100, 2⟩],
          ⟨"A", "101", "123"⟩, "cash", none⟩)].find?
        (fun o2 => o2.order_id == "ORD-1")
      = some (applyStatusUpdate 2 "preparing" (some "On it")
          (create_order 1 ⟨"u1", "U", [⟨1, "S", 1, "Burger", 100, 2⟩],
            ⟨"A", "101", "123"⟩, "cash", none⟩)) ∧
    (applyStatusUpdate 2 "preparing" (some "On it")
        (create_order 1 ⟨"u1", "U", [⟨1, "S", 1, "Burger", 100, 2⟩],
          ⟨"A", "101", "123"⟩, "cash", none⟩)).timeline.length
      = (create_order 1 ⟨"u1", "U", [⟨1, "S", 1, "Burger", 100, 2⟩],
          ⟨"A", "101", "123"⟩, "cash", none⟩).timeline.length + 1 ∧
    timelineInv (applyStatusUpdate 2 "preparing" (some "On it")
      (create_order 1 ⟨"u1", "U", [⟨1, "S", 1, "Burger", 100, 2⟩],
        ⟨"A", "101", "123"⟩, "cash", none⟩)) := by
  obtain ⟨s, o, h1, h2, h3, h4, h5, h6, h7⟩ :=
    C1_timeline_invariant.2 2 "ORD-1" ⟨some "preparing", some "On it"⟩
      [create_order 1 ⟨"u1", "U", [⟨1, "S", 1, "Burger", 100, 2⟩],
        ⟨"A", "101", "123"⟩, "cash", none⟩]
      [applyStatusUpdate 2 "preparing" (some "On it")
        (create_order 1 ⟨"u1", "U", [⟨1, "S", 1, "Burger", 100, 2⟩],
          ⟨"A", "101", "123"⟩, "cash", none⟩)] rfl
  obtain rfl : s = "preparing" := by simpa using h1.symm
  obtain rfl : o = create_order 1 ⟨"u1", "U", [⟨1, "S", 1, "Burger", 100, 2⟩],
      ⟨"A", "101", "123"⟩, "cash", none⟩ := by
    have hev : [create_order 1 ⟨"u1", "U", [⟨1, "S", 1, "Burger", 100, 2⟩],
        ⟨"A", "101", "123"⟩, "cash", none⟩].find? (fun o2 => o2.order_id == "ORD-1")
        = some (create_order 1 ⟨"u1", "U", [⟨1, "S", 1, "Burger", 100, 2⟩],
          ⟨"A", "101", "123"⟩, "cash", none⟩) := rfl
    rw [hev] at h2
    exact (Option.some.inj h2).symm
  exact ⟨h4, h5, (h6 (by decide)).2⟩

theorem update_item_rating_store_none {now sid iid : Nat} {reviews : List Review}
    {stores : List Store} (h : stores.find? (fun s => s.id == sid) = none) :
    update_item_rating now sid iid reviews stores = stores := by
  simp only [update_item_rating, h]

theorem update_item_rating_store_found (now sid iid : Nat) (reviews : List Review)
    (stores : List Store) (st : Store)
    (h : stores.find? (fun s => s.id == sid) = some st) :
    update_item_rating now sid iid reviews stores =
      replaceFirst (fun s => s.id == sid)
        (fun s => { s with
          menu := replaceFirst (fun item => item.id == iid)
            (fun item => { item with
              rating := some (aggRating sid iid reviews),
              review_count := some (aggCount sid iid reviews) }) st.menu,
          updated_at := now }) stores := by
  simp only [update_item_rating, h]

/-- Claim C10: when the store exists but no menu item matches, the store
document is still written: `update_item_rating` rewrites the first store
with that id with an unchanged menu and a bumped `updated_at` — the
missing-item case is not a no-op on the store document. -/
theorem C10_missing_item_still_writes :
    ∀ (now sid iid : Nat) (reviews : List Review) (stores : List Store) (st : Store),
      stores.find? (fun s => s.id == sid) = some st →
      st.menu.find? (fun item => item.id == iid) = none →
      update_item_rating now sid iid reviews stores =
        replaceFirst (fun s => s.id == sid)
          (fun s => { s with updated_at := now }) stores ∧
      (update_item_rating now sid iid reviews stores).find? (fun s => s.id == sid)
        = some { st with updated_at := now } := by
  intro now sid iid reviews stores st hfind hitem
  have h1 := update_item_rating_store_found now sid iid reviews stores st hfind
  rw [replaceFirst_of_find?_eq_none hitem] at h1
  have h2 : update_item_rating now sid iid reviews stores =
      replaceFirst (fun s => s.id == sid)
        (fun s => { s with updated_at := now }) stores := by
    rw [h1]
    exact replaceFirst_congr hfind rfl
  refine ⟨h2, ?_⟩
  rw [h2]
  exact find?_replaceFirst hfind (by simpa using List.find?_some hfind)

/-- Counterexample to claim C3 as stated: with 1001 approved reviews of
rating 5 for item 1 of store 1, `update_item_rating` fetches only the
first 1000 (`to_list(length=1000)`) and stores `review_count = 1000`,
while the claim demands the count of all approved reviews, 1001. -/
theorem C3_review_cap_counterexample :
    update_item_rating 9 1 1 (List.replicate 1001 ⟨1, 1, 5, "approved"⟩)
        [⟨1, "S", [⟨1, "Burger", 100, none, none⟩], 0⟩]
      = [⟨1, "S", [⟨1, "Burger", 100, some 5, some 1000⟩], 9⟩] ∧
    (approvedReviews 1 1 (List.replicate 1001 ⟨1, 1, 5, "approved"⟩)).length = 1001 ∧
    (1000 : Nat) ≠ 1001 := by
  have hA : approvedReviews 1 1 (List.replicate 1001 ⟨1, 1, 5, "approved"⟩)
      = List.replicate 1001 ⟨1, 1, 5, "approved"⟩ := by
    rw [approvedReviews, List.filter_eq_self]
    intro a ha
    rw [List.eq_of_mem_replicate ha]
    rfl
  have htake : (List.replicate 1001 (⟨1, 1, 5, "approved"⟩ : Review)).take 1000
      = List.replicate 1000 ⟨1, 1, 5, "approved"⟩ := by
    rw [List.take_replicate]
    norm_num
  have hrat : aggRating 1 1 (List.replicate 1001 ⟨1, 1, 5, "approved"⟩) = 5 := by
    simp only [aggRating, hA, htake, List.isEmpty_iff]
    rw [if_neg (by simp)]
    simp only [List.map_replicate, List.sum_replicate, List.length_replicate, nsmul_eq_mul]
    norm_num [round1]
  have hcnt : aggCount 1 1 (List.replicate 1001 ⟨1, 1, 5, "approved"⟩) = 1000 := by
    simp only [aggCount, hA, htake, List.isEmpty_iff]
    rw [if_neg (by simp)]
    simp only [List.length_replicate]
  refine ⟨?_, by rw [hA, List.length_replicate], by norm_num⟩
  rw [update_item_rating_store_found 9 1 1 (List.replicate 1001 ⟨1, 1, 5, "approved"⟩)
    [⟨1, "S", [⟨1, "Burger", 100, none, none⟩], 0⟩]
    ⟨1, "S", [⟨1, "Burger", 100, none, none⟩], 0⟩ (by decide)]
  simp only [replaceFirst, hrat, hcnt]
  norm_num

/-- Claim C3 (amended): `update_item_rating` recomputes the first matching
menu item's rating and count from the **first 1000** approved reviews for
the pair (the query is capped at `to_list(length=1000)`); in particular,
whenever at most 1000 approved reviews exist, the rating is
`round(sum/count, 1)` and the count is the number of approved reviews,
zero approved reviews give the defaults `4.0` and `0`, and a missing store
id makes the whole operation a no-op. -/
theorem C3_rating_aggregator_capped :
    (∀ (now sid iid : Nat) (reviews : List Review) (stores : List Store),
      stores.find? (fun s => s.id == sid) = none →
      update_item_rating now sid iid reviews stores = stores) ∧
    (∀ (now sid iid : Nat) (reviews : List Review) (stores : List Store)
        (st : Store) (it : MenuItem),
      (approvedReviews sid iid reviews).length ≤ 1000 →
      stores.find? (fun s => s.id == sid) = some st →
      st.menu.find? (fun item => item.id == iid) = some it →
      ((update_item_rating now sid iid reviews stores).find?
          (fun s => s.id == sid)).map Store.updated_at = some now ∧
      ((update_item_rating now sid iid reviews stores).find?
          (fun s => s.id == sid)).bind
          (fun st2 => st2.menu.find? (fun item => item.id == iid))
        = some (if (approvedReviews sid iid reviews).isEmpty then
            { it with rating := some 4, review_count := some 0 }
          else
            { it with
              rating := some (round1
                (((approvedReviews sid iid reviews).map Review.rating).sum /
                  ((approvedReviews sid iid reviews).length : ℚ))),
              review_count := some (approvedReviews sid iid reviews).length })) := by
  refine ⟨fun now sid iid reviews stores h => update_item_rating_store_none h, ?_⟩
  intro now sid iid reviews stores st it hle hfind hit
  have htake : (approvedReviews sid iid reviews).take 1000
      = approvedReviews sid iid reviews := List.take_of_length_le hle
  have h1 := update_item_rating_store_found now sid iid reviews stores st hfind
  have hfd : (replaceFirst (fun s => s.id == sid)
      (fun s => { s with
        menu := replaceFirst (fun item => item.id == iid)
          (fun item => { item with
            rating := some (aggRating sid iid reviews),
            review_count := some (aggCount sid iid reviews) }) st.menu,
        updated_at := now }) stores).find? (fun s => s.id == sid)
      = some { st with
          menu := replaceFirst (fun item => item.id == iid)
            (fun item => { item with
              rating := some (aggRating sid iid reviews),
              review_count := some (aggCount sid iid reviews) }) st.menu,
          updated_at := now } :=
    find?_replaceFirst hfind (by simpa using List.find?_some hfind)
  rw [h1, hfd]
  have hmenu : (replaceFirst (fun item => item.id == iid)
      (fun item => { item with
        rating := some (aggRating sid iid reviews),
        review_count := some (aggCount sid iid reviews) }) st.menu).find?
      (fun item => item.id == iid)
      = some { it with
          rating := some (aggRating sid iid reviews),
          review_count := some (aggCount sid iid reviews) } :=
    find?_replaceFirst hit (by simpa using List.find?_some hit)
  refine ⟨rfl, ?_⟩
  show (replaceFirst _ _ st.menu).find? _ = _
  rw [hmenu]
  cases hemp : (approvedReviews sid iid reviews).isEmpty with
  | true =>
      have hr : aggRating sid iid reviews = 4 := by
        simp only [aggRating, htake, hemp, if_true]
      have hc : aggCount sid iid reviews = 0 := by
        simp only [aggCount, htake, hemp, if_true]
      rw [hr, hc, if_pos rfl]
  | false =>
      have hr : aggRating sid iid reviews = round1
          (((approvedReviews sid iid reviews).map Review.rating).sum /
            ((approvedReviews sid iid reviews).length : ℚ)) := by
        simp only [aggRating, htake, hemp, Bool.false_eq_true, if_false]
      have hc : aggCount sid iid reviews = (approvedReviews sid iid reviews).length := by
        simp only [aggCount, htake, hemp, Bool.false_eq_true, if_false]
      rw [hr, hc, if_neg (by simp [hemp])]

/-- Witness for C3 (amended) at a concrete database: two approved reviews
(5 and 4) for item 1 of store 1 — plus a pending one and one for another
store, both ignored — yield rating `4.5 = round(9/2, 1)` and count 2. -/
theorem C3_rating_aggregator_capped_witness :
    ((update_item_rating 7 1 1
        [⟨1, 1, 5, "approved"⟩, ⟨1, 1, 4, "approved"⟩,
         ⟨1, 1, 2, "pending"⟩, ⟨2, 1, 1, "approved"⟩]
        [⟨1, "S", [⟨1, "Burger", 100, some 4, some 0⟩], 0⟩]).find?
        (fun s => s.id == 1)).bind
        (fun st2 => st2.menu.find? (fun item => item.id == 1))
      = some ⟨1, "Burger", 100, some (9 / 2 : ℚ), some 2⟩ := by
  have h := (C3_rating_aggregator_capped.2 7 1 1
    [⟨1, 1, 5, "approved"⟩, ⟨1, 1, 4, "approved"⟩,
     ⟨1, 1, 2, "pending"⟩, ⟨2, 1, 1, "approved"⟩]
    [⟨1, "S", [⟨1, "Burger", 100, some 4, some 0⟩], 0⟩]
    ⟨1, "S", [⟨1, "Burger", 100, some 4, some 0⟩], 0⟩
    ⟨1, "Burger", 100, some 4, some 0⟩
    (by decide) (by decide) (by decide)).2
  rw [h]
  have hA : approvedReviews 1 1
      [⟨1, 1, 5, "approved"⟩, ⟨1, 1, 4, "approved"⟩,
       ⟨1, 1, 2, "pending"⟩, ⟨2, 1, 1, "approved"⟩]
      = [⟨1, 1, 5, "approved"⟩, ⟨1, 1, 4, "approved"⟩] := by
    rw [approvedReviews]
    rfl
  rw [hA]
  norm_num [round1]

theorem rate_menu_item_found {now sid iid : Nat} {v : ℚ} {stores : List Store}
    {st : Store} {it : MenuItem}
    (hfind : stores.find? (fun s => s.id == sid) = some st)
    (hit : st.menu.find? (fun item => item.id == iid) = some it) :
    rate_menu_item now sid iid v stores = .ok
      (replaceFirst (fun s => s.id == sid)
        (fun s => { s with
          menu := replaceFirst (fun item => item.id == iid) (rateItem v) st.menu,
          updated_at := now }) stores,
       (rateItem v it).rating.getD 4,
       (rateItem v it).review_count.getD 0) := by
  simp only [rate_menu_item, hfind, hit]

/-- Claim C5: on an existing store and item, `rate_menu_item` returns and
stores `round(((old_rating * old_count) + v) / (old_count + 1), 1)` with
count `old_count + 1` (defaults 4.0 / 0 when the fields are absent); in
particular rating 5 from `(4.0, 0)` gives `(5.0, 1)` and a subsequent
rating 3 gives `(4.0, 2)`. -/
theorem C5_incremental_weighted_average :
    (∀ (now sid iid : Nat) (v : ℚ) (stores : List Store) (st : Store) (it : MenuItem),
      stores.find? (fun s => s.id == sid) = some st →
      st.menu.find? (fun item => item.id == iid) = some it →
      rate_menu_item now sid iid v stores = .ok
        (replaceFirst (fun s => s.id == sid)
          (fun s => { s with
            menu := replaceFirst (fun item => item.id == iid) (rateItem v) st.menu,
            updated_at := now }) stores,
         round1 ((it.rating.getD 4 * (it.review_count.getD 0 : ℚ) + v) /
           ((it.review_count.getD 0 : ℚ) + 1)),
         it.review_count.getD 0 + 1) ∧
      (replaceFirst (fun item => item.id == iid) (rateItem v) st.menu).find?
          (fun item => item.id == iid)
        = some { it with
            rating := some (round1 ((it.rating.getD 4 * (it.review_count.getD 0 : ℚ) + v) /
              ((it.review_count.getD 0 : ℚ) + 1))),
            review_count := some (it.review_count.getD 0 + 1) }) ∧
    rate_menu_item 5 1 1 5 [⟨1, "S", [⟨1, "Burger", 100, some 4, some 0⟩], 0⟩]
      = .ok ([⟨1, "S", [⟨1, "Burger", 100, some 5, some 1⟩], 5⟩], 5, 1) ∧
    rate_menu_item 6 1 1 3 [⟨1, "S", [⟨1, "Burger", 100, some 5, some 1⟩], 5⟩]
      = .ok ([⟨1, "S", [⟨1, "Burger", 100, some 4, some 2⟩], 6⟩], 4, 2) := by
  refine ⟨?_, ?_, ?_⟩
  · intro now sid iid v stores st it hfind hit
    have hfmt : rateItem v it = { it with
        rating := some (round1 ((it.rating.getD 4 * (it.review_count.getD 0 : ℚ) + v) /
          ((it.review_count.getD 0 : ℚ) + 1))),
        review_count := some (it.review_count.getD 0 + 1) } := by
      simp only [rateItem]
      push_cast
      rfl
    refine ⟨?_, ?_⟩
    · rw [rate_menu_item_found hfind hit, hfmt]
      rfl
    · rw [find?_replaceFirst hit (by simpa using List.find?_some hit), hfmt]
  · norm_num [rate_menu_item, rateItem, replaceFirst, round1, List.find?]
  · norm_num [rate_menu_item, rateItem, replaceFirst, round1, List.find?]

/-- Witness for C5 on a concrete store whose item has no stored rating yet:
the defaults `(4.0, 0)` apply and a rating of 5 stores `(5.0, 1)`. -/
theorem C5_incremental_weighted_average_witness :
    rate_menu_item 4 2 7 5 [⟨2, "T", [⟨7, "Pizza", 80, none, none⟩], 0⟩]
      = .ok ([⟨2, "T", [⟨7, "Pizza", 80, some 5, some 1⟩], 4⟩], 5, 1) := by
  have h := (C5_incremental_weighted_average.1 4 2 7 5
    [⟨2, "T", [⟨7, "Pizza", 80, none, none⟩], 0⟩]
    ⟨2, "T", [⟨7, "Pizza", 80, none, none⟩], 0⟩
    ⟨7, "Pizza", 80, none, none⟩ (by decide) (by decide)).1
  rw [h]
  norm_num [replaceFirst, rateItem, round1]

/-! ### Decimal representation: `Nat.repr` is injective
(needed to settle the order-identifier claim). -/

theorem toDigitsCore_eq_digits :
    ∀ (fuel n : Nat) (ds : List Char), 0 < n → n < fuel →
      Nat.toDigitsCore 10 fuel n ds
        = ((Nat.digits 10 n).map Nat.digitChar).reverse ++ ds := by
  intro fuel
  induction fuel with
  | zero => intro n ds hn hf; exact absurd hf (by omega)
  | succ fuel ih =>
      intro n ds hn hf
      rw [Nat.toDigitsCore]
      by_cases hdiv : n / 10 = 0
      · have hlt : n < 10 := (Nat.div_eq_zero_iff (by norm_num)).mp hdiv
        rw [if_pos hdiv, Nat.digits_def' (by norm_num) hn, Nat.mod_eq_of_lt hlt,
          hdiv]
        simp
      · rw [if_neg hdiv]
        have hpos : 0 < n / 10 := Nat.pos_of_ne_zero hdiv
        have hlt : n / 10 < fuel := by
          have := Nat.div_lt_self hn (by norm_num : 1 < 10)
          omega
        rw [ih (n / 10) _ hpos hlt, Nat.digits_def' (by norm_num : 1 < 10) hn]
        simp [List.append_assoc]

theorem toDigits_eq_digits (n : Nat) (hn : 0 < n) :
    Nat.toDigits 10 n = ((Nat.digits 10 n).map Nat.digitChar).reverse := by
  rw [Nat.toDigits, toDigitsCore_eq_digits (n + 1) n [] hn (Nat.lt_succ_self n),
    List.append_nil]

theorem digitChar_inj_lt10 {d e : Nat} (hd : d < 10) (he : e < 10)
    (h : Nat.digitChar d = Nat.digitChar e) : d = e := by
  have hfin : ∀ d2 e2 : Fin 10, Nat.digitChar d2 = Nat.digitChar e2 → (d2 : Nat) = e2 := by
    decide
  exact hfin ⟨d, hd⟩ ⟨e, he⟩ h

theorem map_digitChar_inj :
    ∀ (l1 l2 : List Nat), (∀ x ∈ l1, x < 10) → (∀ x ∈ l2, x < 10) →
      l1.map Nat.digitChar = l2.map Nat.digitChar → l1 = l2
  | [], [], _, _, _ => rfl
  | [], _ :: _, _, _, h => by simp at h
  | _ :: _, [], _, _, h => by simp at h
  | a :: l1, b :: l2, h1, h2, h => by
      rw [List.map_cons, List.map_cons] at h
      obtain ⟨hab, htail⟩ := List.cons.inj h
      rw [digitChar_inj_lt10 (h1 a (by simp)) (h2 b (by simp)) hab,
        map_digitChar_inj l1 l2 (fun x hx => h1 x (by simp [hx]))
          (fun x hx => h2 x (by simp [hx])) htail]

theorem nat_repr_inj {m n : Nat} (h : Nat.repr m = Nat.repr n) : m = n := by
  have hd : Nat.toDigits 10 m = Nat.toDigits 10 n := congrArg String.data h
  have key : ∀ a : Nat, 0 < a → ∀ b : Nat, Nat.toDigits 10 a = Nat.toDigits 10 b → a = b := by
    intro a ha b hab
    rcases Nat.eq_zero_or_pos b with rfl | hb
    · rw [toDigits_eq_digits a ha] at hab
      have h0 : Nat.toDigits 10 0 = [Char.ofNat 48] := rfl
      rw [h0] at hab
      have hrev : (Nat.digits 10 a).map Nat.digitChar = [Char.ofNat 48] := by
        have := congrArg List.reverse hab
        simpa using this
      have hdig : Nat.digits 10 a = [0] :=
        map_digitChar_inj _ [0] (fun x hx => Nat.digits_lt_base (by norm_num) hx)
          (by simp) (by simpa using hrev)
      have := congrArg (Nat.ofDigits 10) hdig
      rw [Nat.ofDigits_digits] at this
      simp [Nat.ofDigits] at this
      omega
    · rw [toDigits_eq_digits a ha, toDigits_eq_digits b hb] at hab
      have hmap : (Nat.digits 10 a).map Nat.digitChar
          = (Nat.digits 10 b).map Nat.digitChar := by
        have := congrArg List.reverse hab
        simpa using this
      have hdig := map_digitChar_inj _ _
        (fun x hx => Nat.digits_lt_base (by norm_num) hx)
        (fun x hx => Nat.digits_lt_base (by norm_num) hx) hmap
      have := congrArg (Nat.ofDigits 10) hdig
      rwa [Nat.ofDigits_digits, Nat.ofDigits_digits] at this
  rcases Nat.eq_zero_or_pos m with rfl | hm
  · rcases Nat.eq_zero_or_pos n with rfl | hn
    · rfl
    · exact (key n hn 0 hd.symm).symm
  · exact key m hm n hd

theorem ord_prefix_inj {a b : Nat}
    (h : ("ORD-" ++ Nat.repr a : String) = "ORD-" ++ Nat.repr b) : a = b := by
  have hd := congrArg String.data h
  rw [String.data_append, String.data_append] at hd
  have hc := List.append_cancel_left hd
  exact nat_repr_inj (String.ext hc)

theorem add_active_user_once (now : Nat) (p : ActiveUserCreate)
    (users : List ActiveUserRecord)
    (h : countUser p.user_id users ≤ 1) :
    countUser p.user_id (add_active_user now p users) = 1 ∧
    (add_active_user now p users).find? (fun u => u.user_id == p.user_id)
      = some (mkActiveUserRecord now p) := by
  rw [add_active_user]
  by_cases ha : users.any (fun u => u.user_id == p.user_id)
  · rw [if_pos ha]
    obtain ⟨x, hx, hpx⟩ := List.any_eq_true.mp ha
    have h1 : 1 ≤ countUser p.user_id users := by
      rw [countUser]
      have hm : x ∈ users.filter (fun u => u.user_id == p.user_id) :=
        List.mem_filter.mpr ⟨hx, hpx⟩
      exact List.length_pos.mpr (List.ne_nil_of_mem hm)
    have heq : countUser p.user_id users = 1 := le_antisymm h h1
    constructor
    · rw [countUser] at heq ⊢
      rw [length_filter_replaceFirst (fun y _ => by simp [mkActiveUserRecord])]
      exact heq
    · match hf : users.find? (fun u => u.user_id == p.user_id) with
      | none =>
          rw [List.find?_eq_none] at hf
          exact absurd hpx (hf x hx)
      | some a => exact find?_replaceFirst hf (by simp [mkActiveUserRecord])
  · rw [if_neg ha]
    have hfn : users.find? (fun u => u.user_id == p.user_id) = none := by
      rw [List.find?_eq_none]
      intro a haa hpa
      exact ha (List.any_eq_true.mpr ⟨a, haa, hpa⟩)
    have hflt : users.filter (fun u => u.user_id == p.user_id) = [] := by
      rw [List.filter_eq_nil_iff]
      intro a haa hpa
      exact ha (List.any_eq_true.mpr ⟨a, haa, hpa⟩)
    constructor
    · rw [countUser, List.filter_append, hflt]
      simp [mkActiveUserRecord]
    · rw [List.find?_append, hfn]
      simp [mkActiveUserRecord]

/-- Claim C7: the presence upsert is idempotent and fully replacing per
user id: starting from a collection holding at most one record for the
user id, two successive `POST /api/active-users` calls leave exactly one
record for that id, and it is built from the latest payload alone. -/
theorem C7_presence_upsert_idempotent :
    ∀ (now1 now2 : Nat) (p1 p2 : ActiveUserCreate) (users : List ActiveUserRecord),
      p2.user_id = p1.user_id →
      countUser p1.user_id users ≤ 1 →
      countUser p1.user_id (add_active_user now2 p2 (add_active_user now1 p1 users)) = 1 ∧
      (add_active_user now2 p2 (add_active_user now1 p1 users)).find?
          (fun u => u.user_id == p1.user_id)
        = some (mkActiveUserRecord now2 p2) := by
  intro now1 now2 p1 p2 users hid h
  have h1 := add_active_user_once now1 p1 users h
  have h2 := add_active_user_once now2 p2 (add_active_user now1 p1 users)
    (by rw [hid]; exact le_of_eq h1.1)
  rw [hid] at h2
  exact h2

/-- Witness for C7: two heartbeats for user `u9` with different payloads on
an empty collection leave exactly the one record of the second payload. -/
theorem C7_presence_upsert_idempotent_witness :
    countUser "u9" (add_active_user 4 ⟨"u9", "s2", true, some "S", none⟩
      (add_active_user 3 ⟨"u9", "s1", false, none, none⟩ [])) = 1 ∧
    (add_active_user 4 ⟨"u9", "s2", true, some "S", none⟩
        (add_active_user 3 ⟨"u9", "s1", false, none, none⟩ [])).find?
        (fun u => u.user_id == "u9")
      = some (mkActiveUserRecord 4 ⟨"u9", "s2", true, some "S", none⟩) :=
  C7_presence_upsert_idempotent 3 4 ⟨"u9", "s1", false, none, none⟩
    ⟨"u9", "s2", true, some "S", none⟩ [] rfl (by decide)

/-- Counterexample to claim C8 as stated: two distinct orders created in
the same process during the same millisecond (timestamp 1700000000000)
receive the same `order_id` — the identifier is not unique. -/
theorem C8_same_millisecond_collision :
    create_order 1700000000000 ⟨"u1", "U", [], ⟨"A", "101", "123"⟩, "cash", none⟩ ≠
      create_order 1700000000000 ⟨"u2", "V", [], ⟨"A", "101", "123"⟩, "cash", none⟩ ∧
    (create_order 1700000000000 ⟨"u1", "U", [], ⟨"A", "101", "123"⟩, "cash", none⟩).order_id =
      (create_order 1700000000000 ⟨"u2", "V", [], ⟨"A", "101", "123"⟩, "cash", none⟩).order_id := by
  constructor
  · intro h
    have hu := congrArg Order.user_id h
    simp [create_order] at hu
  · rfl

/-- Claim C8 (amended): every created order's identifier is the string
`ORD-` followed by the decimal millisecond creation timestamp, and two
created orders share an identifier exactly when they were created in the
same millisecond — so identifiers are unique across orders created at
distinct millisecond timestamps, while orders created within one
millisecond collide (see the counterexample). -/
theorem C8_order_id_format :
    ∀ (now : Nat) (d : OrderCreate) (now' : Nat) (d' : OrderCreate),
      (create_order now d).order_id = "ORD-" ++ Nat.repr now ∧
      (create_order now d).created_at = now ∧
      ((create_order now d).order_id = (create_order now' d').order_id ↔ now = now') := by
  intro now d now' d'
  refine ⟨rfl, rfl, ?_, ?_⟩
  · intro h
    exact ord_prefix_inj h
  · intro h
    show ("ORD-" ++ Nat.repr now : String) = "ORD-" ++ Nat.repr now'
    rw [h]

/-- Claim C6: the hunger level is the floor of
`min((active/100)*100, 100)`, multiplied by 1.5 and re-capped at 100
before flooring during the peak hours `[11,14]` and `[18,21]`; it never
exceeds 100 (and is a `Nat`, hence at least 0); 50 active users yield 75
at hour 12 and 50 at hour 9. -/
theorem C6_hunger_level :
    ∀ (now : Nat) (users : List ActiveUserRecord),
      get_hunger_level now users =
        (⌊if (11 ≤ hourOf now ∧ hourOf now ≤ 14) ∨ (18 ≤ hourOf now ∧ hourOf now ≤ 21)
          then min (min (((activeCount now users : ℚ) / 100) * 100) 100 * (3 / 2)) 100
          else min (((activeCount now users : ℚ) / 100) * 100) 100⌋).toNat ∧
      get_hunger_level now users ≤ 100 ∧
      get_hunger_level 43200000
        (List.replicate 50 ⟨"u", "s", 43200000, false, none, none, 43200000⟩) = 75 ∧
      get_hunger_level 32400000
        (List.replicate 50 ⟨"u", "s", 32400000, false, none, none, 32400000⟩) = 50 := by
  intro now users
  have hex1 : get_hunger_level 43200000
      (List.replicate 50 ⟨"u", "s", 43200000, false, none, none, 43200000⟩) = 75 := by
    have h : activeCount 43200000
        (List.replicate 50 ⟨"u", "s", 43200000, false, none, none, 43200000⟩) = 50 := by
      decide
    rw [get_hunger_level, h]
    norm_num [computeHungerLevel, isPeakHour, hourOf]
    rfl
  have hex2 : get_hunger_level 32400000
      (List.replicate 50 ⟨"u", "s", 32400000, false, none, none, 32400000⟩) = 50 := by
    have h : activeCount 32400000
        (List.replicate 50 ⟨"u", "s", 32400000, false, none, none, 32400000⟩) = 50 := by
      decide
    rw [get_hunger_level, h]
    norm_num [computeHungerLevel, isPeakHour, hourOf]
    rfl
  refine ⟨?_, ?_, hex1, hex2⟩
  · by_cases hp : (11 ≤ hourOf now ∧ hourOf now ≤ 14) ∨ (18 ≤ hourOf now ∧ hourOf now ≤ 21)
    · simp [get_hunger_level, computeHungerLevel, isPeakHour, hp]
    · simp [get_hunger_level, computeHungerLevel, isPeakHour, hp]
  · rw [get_hunger_level, computeHungerLevel]
    apply Int.toNat_le.mpr
    have hb : (if isPeakHour (hourOf now) then
        min (min (((activeCount now users : ℚ) / 100) * 100) 100 * (3 / 2)) 100
        else min (((activeCount now users : ℚ) / 100) * 100) 100) ≤ (100 : ℚ) := by
      split
      · exact min_le_right _ _
      · exact min_le_right _ _
    have := Int.floor_le_floor hb
    simpa using this

/-- Witness for C10: a store with only item 2, recomputed for item 5: the
menu is untouched but `updated_at` becomes the call time 9. -/
theorem C10_missing_item_still_writes_witness :
    update_item_rating 9 1 5 [⟨1, 5, 5, "approved"⟩]
        [⟨1, "S", [⟨2, "Burger", 100, some 4, some 0⟩], 0⟩]
      = replaceFirst (fun s => s.id == 1)
          (fun s => { s with updated_at := 9 })
          [⟨1, "S", [⟨2, "Burger", 100, some 4, some 0⟩], 0⟩] ∧
    (update_item_rating 9 1 5 [⟨1, 5, 5, "approved"⟩]
        [⟨1, "S", [⟨2, "Burger", 100, some 4, some 0⟩], 0⟩]).find? (fun s => s.id == 1)
      = some ⟨1, "S", [⟨2, "Burger", 100, some 4, some 0⟩], 9⟩ :=
  C10_missing_item_still_writes 9 1 5 [⟨1, 5, 5, "approved"⟩]
    [⟨1, "S", [⟨2, "Burger", 100, some 4, some 0⟩], 0⟩]
    ⟨1, "S", [⟨2, "Burger", 100, some 4, some 0⟩], 0⟩ (by decide) (by decide)

end FoodApp
